import Mathlib

/-!
Verification of the renewal decision logic of guilhem/token-renewer.

The development shallowly embeds the `Reconcile` method of
`internal/controller/token_controller.go` and the plugin-discovery name
derivation of `internal/providers` (`DiscoverPlugins`, the `*.sock` variant
bundled in `internal/pluginserver/server.go`).

Modelling conventions:
- instants (`time.Time`, `metav1.Time`) are integers; the integer `0` plays
  the role of Go's zero time value (`IsZero`), which for the policy status
  field means "expiration unknown";
- durations are integers; `time.Now().Add(d)` is `now + d` and
  `time.Until(t)` is `t - now`;
- a provider call returning `(*time.Time, error)` is an
  `Except Unit (Option Int)`: `.error` is a non-nil Go error, `.ok none` is
  a nil pointer with a nil error, `.ok (some t)` a non-nil pointer;
- the resource store's `Get` outcomes are `ok / notFound / failed`
  (`failed` being any non-NotFound error);
- `controllerutil.CreateOrUpdate` / `CreateOrPatch` re-fetch the object,
  apply the mutation, compare the mutated object with the fetched one, and
  issue a write (returning an operation other than `OperationResultNone`)
  only when the two differ; a requested write can fail, which the
  environment models with one failure flag per call site;
- a Secret read from the Kubernetes API never carries `stringData` (the
  field is write-only and merged into `data` server-side), so the object
  seen by `CreateOrUpdate` has an empty `stringData`;
- every externally visible action of one evaluation (provider calls,
  issued writes, emitted events) is recorded in an ordered trace.
-/

namespace TokenRenewer

/-- `time.Time.After`: `timeAfter t u` holds iff `t` is strictly later than `u`. -/
def timeAfter (t u : Int) : Bool := decide (u < t)

/-- `metav1.Time.IsZero`: the timestamp is the zero value (the unset marker). -/
def timeIsZero (t : Int) : Bool := decide (t = 0)

/-- the renewal-due condition of `token_controller.go` line 125:
`!token.Status.ExpirationTime.IsZero() && !token.Status.ExpirationTime.After(timeToUpdate)`
where `timeToUpdate = time.Now().Add(token.Spec.Renewval.BeforeDuration.Duration)`. -/
def renewalDue (exp now before : Int) : Bool :=
  !timeIsZero exp && !timeAfter exp (now + before)

/-- `TokenSpec` of `api/v1beta1`: provider name, opaque metadata, the renewal
lead duration and the referenced Secret name. -/
structure TokenSpec where
  providerName : String
  metadata : String
  beforeDuration : Int
  secretRefName : String
deriving DecidableEq

/-- `TokenStatus`: the stored expiration time (`0` = zero value = unset). -/
structure TokenStatus where
  expirationTime : Int
deriving DecidableEq

/-- a `Token` custom resource (the Credential Policy). -/
structure TokenObj where
  spec : TokenSpec
  status : TokenStatus
deriving DecidableEq

/-- a Kubernetes Secret (the Credential Store entry): `data` holds the live
key/value pairs, `stringData` is the write-only staging field. -/
structure SecretObj where
  data : List (String × String)
  stringData : List (String × String)
deriving DecidableEq

/-- map lookup in a Secret's `data`. -/
def getKey (key : String) : List (String × String) → Option String
  | [] => none
  | (k, v) :: rest => if k = key then some v else getKey key rest

/-- outcome of a resource-store `Get`: found, NotFound, or another error. -/
inductive GetResult (α : Type) where
  | ok (a : α)
  | notFound
  | failed
deriving DecidableEq

deriving instance DecidableEq for Except

/-- behaviour of the resolved provider in this evaluation: outcomes of
`GetTokenValidity` and `RenewToken` (`.ok none` = nil expiration pointer with
nil error; the renewal payload is `(newToken, newMetadata, expiration)`). -/
structure ProviderConduct where
  validity : Except Unit (Option Int)
  renew : Except Unit (String × String × Option Int)
deriving DecidableEq

/-- whether each of the three write call sites fails when a write is issued. -/
structure WriteEnv where
  statusPatchFails : Bool
  secretUpdateFails : Bool
  tokenPatchFails : Bool
deriving DecidableEq

/-- everything one `Reconcile` evaluation observes from the outside world. -/
structure ReconcileEnv where
  tokenGet : GetResult TokenObj
  secretGet : GetResult SecretObj
  providerKnown : Bool
  provider : ProviderConduct
  now : Int
  writes : WriteEnv
deriving DecidableEq

/-- the distinguishable error kinds `Reconcile` can return, one per wrapped
error construction in the source. -/
inductive RErr where
  | fetchToken
  | fetchSecret
  | keyMissing
  | valueEmpty
  | providerNotFound
  | validityFailed
  | statusUpdateFailed
  | renewFailed
  | secretUpdateFailed
  | tokenUpdateFailed
deriving DecidableEq

/-- an event emitted through the recorder, with its Go reason string. -/
inductive Ev where
  | warning (reason : String)
  | normal (reason : String)
deriving DecidableEq

/-- one externally visible action of an evaluation, in order. -/
inductive Step where
  | callGetValidity
  | patchTokenStatus (newExp : Int)
  | callRenew
  | writeSecret (newToken : String)
  | patchToken (newMeta : String) (newExp : Int)
  | event (e : Ev)
deriving DecidableEq

/-- `ctrl.Result`: the requeue delay handed back to the scheduler. -/
structure CtrlResult where
  requeueAfter : Int
deriving DecidableEq

/-- how the evaluation terminates: a Go panic (nil-pointer dereference), or a
normal return of a result and an optional error. -/
inductive Outcome where
  | panic
  | done (res : CtrlResult) (err : Option RErr)
deriving DecidableEq

/-- full observable behaviour of one evaluation: the ordered trace, the
termination outcome, and the in-memory expiration at the return statement
(meaningful only for normal success returns of a found policy). -/
structure RecOut where
  trace : List Step
  outcome : Outcome
  finalExp : Int
deriving DecidableEq

/-- lines 99-120: if the stored expiration is the zero value, call
`GetTokenValidity` and persist the returned expiration with
`controllerutil.CreateOrPatch` (`token.Status.ExpirationTime = metav1.NewTime(*t)`,
a nil `t` is dereferenced). Returns the steps taken and either an early
termination outcome or the updated in-memory token. -/
def bootstrapPhase (env : ReconcileEnv) (token : TokenObj) :
    List Step × Except Outcome TokenObj :=
  if timeIsZero token.status.expirationTime = true then
    match env.provider.validity with
    | .error _ =>
        ([.callGetValidity, .event (.warning "TokenValidityError")],
          .error (.done ⟨0⟩ (some .validityFailed)))
    | .ok none => ([.callGetValidity], .error .panic)
    | .ok (some t) =>
      if { token with status := ⟨t⟩ } = token then
        ([.callGetValidity], .ok { token with status := ⟨t⟩ })
      else if env.writes.statusPatchFails = true then
        ([.callGetValidity, .event (.warning "TokenUpdateError")],
          .error (.done ⟨0⟩ (some .statusUpdateFailed)))
      else
        ([.callGetValidity, .patchTokenStatus t, .event (.normal "TokenUpdated")],
          .ok { token with status := ⟨t⟩ })
  else ([], .ok token)

/-- lines 148-159: `controllerutil.CreateOrPatch` on the token, whose mutation
sets `token.Spec.Metadata = newMeta` and
`token.Status.ExpirationTime = metav1.NewTime(*newTime)` (a nil `newTime` is
dereferenced inside the mutation). -/
def renewPersistPolicy (env : ReconcileEnv) (token : TokenObj) (steps : List Step)
    (newMeta : String) (newExpOpt : Option Int) : List Step × Except Outcome TokenObj :=
  match newExpOpt with
  | none => (steps, .error .panic)
  | some newExp =>
    if { spec := { token.spec with metadata := newMeta }, status := ⟨newExp⟩ } = token then
      (steps, .ok { spec := { token.spec with metadata := newMeta }, status := ⟨newExp⟩ })
    else if env.writes.tokenPatchFails = true then
      (steps ++ [.event (.warning "TokenUpdateError")],
        .error (.done ⟨0⟩ (some .tokenUpdateFailed)))
    else
      (steps ++ [.patchToken newMeta newExp, .event (.normal "TokenUpdated")],
        .ok { spec := { token.spec with metadata := newMeta }, status := ⟨newExp⟩ })

/-- lines 122-160: the due check, `RenewToken`, the
`controllerutil.CreateOrUpdate` on the Secret (whose mutation replaces
`secret.StringData` with a fresh one-entry map) and the token patch. -/
def renewPhase (env : ReconcileEnv) (token : TokenObj) (secret : SecretObj)
    (tokenValue : String) : List Step × Except Outcome TokenObj :=
  if renewalDue token.status.expirationTime env.now token.spec.beforeDuration = true then
    match env.provider.renew with
    | .error _ =>
        ([.callRenew, .event (.warning "TokenRenewalError")],
          .error (.done ⟨0⟩ (some .renewFailed)))
    | .ok (newToken, newMeta, newExpOpt) =>
      if { secret with stringData := [("token", newToken)] } = secret then
        renewPersistPolicy env token [.callRenew] newMeta newExpOpt
      else if env.writes.secretUpdateFails = true then
        ([.callRenew, .event (.warning "SecretUpdateError")],
          .error (.done ⟨0⟩ (some .secretUpdateFailed)))
      else
        renewPersistPolicy env token
          [.callRenew, .writeSecret newToken, .event (.normal "SecretUpdated")]
          newMeta newExpOpt
  else ([], .ok token)

/-- `Reconcile` of `token_controller.go` lines 55-165: fetch the Token (a
NotFound error is swallowed by `client.IgnoreNotFound`), fetch the Secret
(any error is returned), read and check the `token` key, resolve the
provider, run the bootstrap and renewal phases, and return
`ctrl.Result{RequeueAfter: time.Until(expiration.Add(-beforeDuration))}`. -/
def reconcile (env : ReconcileEnv) : RecOut :=
  match env.tokenGet with
  | .notFound => ⟨[], .done ⟨0⟩ none, 0⟩
  | .failed => ⟨[], .done ⟨0⟩ (some .fetchToken), 0⟩
  | .ok token =>
    match env.secretGet with
    | .notFound =>
        ⟨[.event (.warning "SecretNotFound")], .done ⟨0⟩ (some .fetchSecret), 0⟩
    | .failed =>
        ⟨[.event (.warning "SecretNotFound")], .done ⟨0⟩ (some .fetchSecret), 0⟩
    | .ok secret0 =>
      match getKey "token" secret0.data with
      | none =>
          ⟨[.event (.warning "TokenKeyNotFound")], .done ⟨0⟩ (some .keyMissing), 0⟩
      | some tokenValue =>
        if tokenValue = "" then
          ⟨[.event (.warning "TokenEmpty")], .done ⟨0⟩ (some .valueEmpty), 0⟩
        else if env.providerKnown = false then
          ⟨[.event (.warning "ProviderNotFound")], .done ⟨0⟩ (some .providerNotFound), 0⟩
        else
          match bootstrapPhase env token with
          | (steps1, .error o) => ⟨steps1, o, 0⟩
          | (steps1, .ok token1) =>
            match renewPhase env token1 { secret0 with stringData := [] } tokenValue with
            | (steps2, .error o) => ⟨steps1 ++ steps2, o, 0⟩
            | (steps2, .ok token2) =>
              ⟨steps1 ++ steps2,
                .done ⟨token2.status.expirationTime - token2.spec.beforeDuration - env.now⟩ none,
                token2.status.expirationTime⟩

/-- the `*.sock` glob filter of `DiscoverPlugins`
(`filepath.Glob(filepath.Join(dir, "*.sock"))`) applied to a basename: the
`*` matches any run of non-separator characters, so a separator-free
basename matches exactly when it ends with `.sock`. -/
def sockGlobMatches (name : String) : Bool :=
  decide (".sock".length ≤ name.length) &&
  decide (name.drop (name.length - ".sock".length) = ".sock")

/-- the provider-name derivation of `DiscoverPlugins`:
`pluginName := socketName[:len(socketName)-len(".socket")]`. -/
def discoveredPluginName (socketName : String) : String :=
  socketName.take (socketName.length - ".socket".length)

/-- policy object used by the concrete evaluations below: provider linode,
metadata "7", renew one hour before expiry, value stored in tok-secret. -/
def c2Token : TokenObj := ⟨⟨"linode", "7", 10, "tok-secret"⟩, ⟨0⟩⟩

/-- evaluation with an unset stored expiration whose GetTokenValidity reply
(5) already lies inside the renewal window (5 ≤ 0 + 10). -/
def c2BadEnv : ReconcileEnv :=
  ⟨.ok c2Token, .ok ⟨[("token", "old")], []⟩, true,
    ⟨.ok (some 5), .ok ("new", "8", some 5000)⟩, 0, ⟨false, false, false⟩⟩

/-- evaluation with an unset stored expiration whose GetTokenValidity reply
(5000) lies beyond the renewal window (0 + 10 < 5000). -/
def c2GoodEnv : ReconcileEnv :=
  ⟨.ok c2Token, .ok ⟨[("token", "old")], []⟩, true,
    ⟨.ok (some 5000), .ok ("new", "8", some 9999)⟩, 0, ⟨false, false, false⟩⟩

/-- evaluation in which the referenced Secret has vanished (NotFound). -/
def secretVanishedEnv : ReconcileEnv :=
  ⟨.ok ⟨⟨"linode", "7", 3600, "tok-secret"⟩, ⟨100⟩⟩, .notFound, true,
    ⟨.ok (some 100), .ok ("new", "8", some 1000)⟩, 0, ⟨false, false, false⟩⟩

/-- evaluation in which the policy object has vanished (NotFound). -/
def policyVanishedEnv : ReconcileEnv :=
  ⟨.notFound, .notFound, true, ⟨.ok (some 100), .ok ("new", "8", some 1000)⟩, 0,
    ⟨false, false, false⟩⟩

/-- evaluation that runs a full successful renewal (due since 100 ≤ 0 + 3600,
new expiration 5000). -/
def c4Env : ReconcileEnv :=
  ⟨.ok ⟨⟨"linode", "7", 3600, "tok-secret"⟩, ⟨100⟩⟩, .ok ⟨[("token", "old")], []⟩, true,
    ⟨.ok (some 100), .ok ("new", "nm", some 5000)⟩, 0, ⟨false, false, false⟩⟩

/-- evaluation whose Secret lacks the token key. -/
def keyMissingEnv : ReconcileEnv :=
  ⟨.ok ⟨⟨"linode", "7", 3600, "tok-secret"⟩, ⟨100⟩⟩, .ok ⟨[("other", "x")], []⟩, true,
    ⟨.ok (some 100), .ok ("new", "8", some 1000)⟩, 0, ⟨false, false, false⟩⟩

/-- evaluation whose Secret holds an empty value under the token key. -/
def valueEmptyEnv : ReconcileEnv :=
  ⟨.ok ⟨⟨"linode", "7", 3600, "tok-secret"⟩, ⟨100⟩⟩, .ok ⟨[("token", "")], []⟩, true,
    ⟨.ok (some 100), .ok ("new", "8", some 1000)⟩, 0, ⟨false, false, false⟩⟩

/-- policy whose renewal computes values identical to the stored ones. -/
def c6Token : TokenObj := ⟨⟨"linode", "7", 10, "tok-secret"⟩, ⟨5⟩⟩

/-- evaluation due for renewal (5 ≤ 0 + 10) in which the provider returns
the currently stored token value, metadata and expiration unchanged. -/
def c6BadEnv : ReconcileEnv :=
  ⟨.ok c6Token, .ok ⟨[("token", "same-token")], []⟩, true,
    ⟨.ok (some 5), .ok ("same-token", "7", some 5)⟩, 0, ⟨false, false, false⟩⟩

/-- evaluation that errors because the provider is not registered. -/
def c7Env : ReconcileEnv :=
  ⟨.ok ⟨⟨"ghost", "7", 3600, "tok-secret"⟩, ⟨100⟩⟩, .ok ⟨[("token", "old")], []⟩, false,
    ⟨.ok (some 100), .ok ("new", "8", some 1000)⟩, 0, ⟨false, false, false⟩⟩

/-- policy for the successful-requeue witness. -/
def c8Token : TokenObj := ⟨⟨"linode", "7", 3600, "tok-secret"⟩, ⟨100⟩⟩

/-- evaluation renewing successfully: new expiration 5000, so the result
recommends requeueing after 5000 - 3600 - 0 = 1400. -/
def c8Env : ReconcileEnv :=
  ⟨.ok c8Token, .ok ⟨[("token", "old")], []⟩, true,
    ⟨.ok (some 100), .ok ("new", "nm", some 5000)⟩, 0, ⟨false, false, false⟩⟩

/-- policy with an unset expiration queried from a provider that returns a
nil expiration pointer together with a nil error. -/
def nilValidityEnv : ReconcileEnv :=
  ⟨.ok ⟨⟨"linode", "7", 3600, "tok-secret"⟩, ⟨0⟩⟩, .ok ⟨[("token", "old")], []⟩, true,
    ⟨.ok none, .ok ("new", "8", some 1000)⟩, 0, ⟨false, false, false⟩⟩

/-- due policy whose RenewToken returns a nil expiration pointer together
with a nil error. -/
def nilRenewEnv : ReconcileEnv :=
  ⟨.ok ⟨⟨"linode", "7", 3600, "tok-secret"⟩, ⟨100⟩⟩, .ok ⟨[("token", "old")], []⟩, true,
    ⟨.ok (some 100), .ok ("new", "8", none)⟩, 0, ⟨false, false, false⟩⟩

lemma bootstrapPhase_steps_no_renew (env : ReconcileEnv) (token : TokenObj) :
    Step.callRenew ∉ (bootstrapPhase env token).1 ∧
    (∀ nm ne, Step.patchToken nm ne ∉ (bootstrapPhase env token).1) ∧
    (∀ nt, Step.writeSecret nt ∉ (bootstrapPhase env token).1) ∧
    Step.event (Ev.warning "SecretUpdateError") ∉ (bootstrapPhase env token).1 := by
  unfold bootstrapPhase
  split
  · split
    · simp
    · simp
    · split
      · simp
      · split <;> simp
  · simp

lemma bootstrapPhase_error_shape (env : ReconcileEnv) (token : TokenObj)
    (s : List Step) (o : Outcome) (h : bootstrapPhase env token = (s, .error o)) :
    o = .panic ∨ ∃ e, o = .done ⟨0⟩ (some e) := by
  unfold bootstrapPhase at h
  split at h
  · split at h
    · simp only [Prod.mk.injEq, Except.error.injEq] at h
      exact Or.inr ⟨_, h.2.symm⟩
    · simp only [Prod.mk.injEq, Except.error.injEq] at h
      exact Or.inl h.2.symm
    · split at h
      · simp at h
      · split at h
        · simp only [Prod.mk.injEq, Except.error.injEq] at h
          exact Or.inr ⟨_, h.2.symm⟩
        · simp at h
  · simp at h

lemma bootstrapPhase_ok_spec (env : ReconcileEnv) (token : TokenObj)
    (s : List Step) (t1 : TokenObj) (h : bootstrapPhase env token = (s, .ok t1)) :
    t1.spec = token.spec ∧
    (token.status.expirationTime ≠ 0 → t1 = token ∧ s = []) ∧
    (token.status.expirationTime = 0 →
      ∃ t, env.provider.validity = .ok (some t) ∧ t1 = { token with status := ⟨t⟩ }) := by
  unfold bootstrapPhase at h
  split at h
  · rename_i hz
    simp only [timeIsZero, decide_eq_true_eq] at hz
    split at h
    · simp at h
    · simp at h
    · rename_i t hval
      split at h
      · simp only [Prod.mk.injEq, Except.ok.injEq] at h
        obtain ⟨hs, ht⟩ := h
        subst ht
        exact ⟨rfl, fun hne => absurd hz hne, fun _ => ⟨t, hval, rfl⟩⟩
      · split at h
        · simp at h
        · simp only [Prod.mk.injEq, Except.ok.injEq] at h
          obtain ⟨hs, ht⟩ := h
          subst ht
          exact ⟨rfl, fun hne => absurd hz hne, fun _ => ⟨t, hval, rfl⟩⟩
  · rename_i hz
    simp only [timeIsZero, decide_eq_true_eq] at hz
    simp only [Prod.mk.injEq, Except.ok.injEq] at h
    obtain ⟨hs, ht⟩ := h
    subst ht
    exact ⟨rfl, fun _ => ⟨rfl, hs.symm⟩, fun h0 => absurd h0 hz⟩

lemma renewPersistPolicy_error_shape (env : ReconcileEnv) (token : TokenObj)
    (steps : List Step) (nm : String) (neo : Option Int) (s : List Step) (o : Outcome)
    (h : renewPersistPolicy env token steps nm neo = (s, .error o)) :
    o = .panic ∨ ∃ e, o = .done ⟨0⟩ (some e) := by
  unfold renewPersistPolicy at h
  split at h
  · simp only [Prod.mk.injEq, Except.error.injEq] at h
    exact Or.inl h.2.symm
  · split at h
    · simp at h
    · split at h
      · simp only [Prod.mk.injEq, Except.error.injEq] at h
        exact Or.inr ⟨_, h.2.symm⟩
      · simp at h

lemma renewPersistPolicy_ok_spec (env : ReconcileEnv) (token : TokenObj)
    (steps : List Step) (nm : String) (neo : Option Int) (s : List Step) (t2 : TokenObj)
    (h : renewPersistPolicy env token steps nm neo = (s, .ok t2)) :
    ∃ ne, neo = some ne ∧
      t2 = { spec := { token.spec with metadata := nm }, status := ⟨ne⟩ } ∧
      (s = steps ∨
        s = steps ++ [Step.patchToken nm ne, Step.event (Ev.normal "TokenUpdated")]) := by
  unfold renewPersistPolicy at h
  split at h
  · simp at h
  · rename_i ne
    split at h
    · simp only [Prod.mk.injEq, Except.ok.injEq] at h
      obtain ⟨hs, ht⟩ := h
      subst ht
      exact ⟨ne, rfl, rfl, Or.inl hs.symm⟩
    · split at h
      · simp at h
      · simp only [Prod.mk.injEq, Except.ok.injEq] at h
        obtain ⟨hs, ht⟩ := h
        subst ht
        exact ⟨ne, rfl, rfl, Or.inr hs.symm⟩

lemma renewPhase_error_shape (env : ReconcileEnv) (token : TokenObj)
    (secret : SecretObj) (v : String) (s : List Step) (o : Outcome)
    (h : renewPhase env token secret v = (s, .error o)) :
    o = .panic ∨ ∃ e, o = .done ⟨0⟩ (some e) := by
  unfold renewPhase at h
  split at h
  · split at h
    · simp only [Prod.mk.injEq, Except.error.injEq] at h
      exact Or.inr ⟨_, h.2.symm⟩
    · split at h
      · exact renewPersistPolicy_error_shape _ _ _ _ _ _ _ h
      · split at h
        · simp only [Prod.mk.injEq, Except.error.injEq] at h
          exact Or.inr ⟨_, h.2.symm⟩
        · exact renewPersistPolicy_error_shape _ _ _ _ _ _ _ h
  · simp at h

lemma renewPhase_ok_spec (env : ReconcileEnv) (token : TokenObj) (secret : SecretObj)
    (v : String) (s : List Step) (t2 : TokenObj)
    (h : renewPhase env token secret v = (s, .ok t2)) :
    t2.spec.beforeDuration = token.spec.beforeDuration ∧
    (Step.callRenew ∈ s →
      ∃ nt nm ne, env.provider.renew = .ok (nt, nm, some ne) ∧
        t2.status.expirationTime = ne) ∧
    (Step.callRenew ∉ s → t2 = token ∧ s = []) := by
  unfold renewPhase at h
  split at h
  · split at h
    · simp at h
    · rename_i nt nm neo hren
      split at h
      · obtain ⟨ne, hneo, ht2, hs⟩ := renewPersistPolicy_ok_spec _ _ _ _ _ _ _ h
        subst ht2 hneo
        refine ⟨rfl, fun _ => ⟨nt, nm, ne, hren, rfl⟩, fun hnot => absurd ?_ hnot⟩
        rcases hs with rfl | rfl <;> simp
      · split at h
        · simp at h
        · obtain ⟨ne, hneo, ht2, hs⟩ := renewPersistPolicy_ok_spec _ _ _ _ _ _ _ h
          subst ht2 hneo
          refine ⟨rfl, fun _ => ⟨nt, nm, ne, hren, rfl⟩, fun hnot => absurd ?_ hnot⟩
          rcases hs with rfl | rfl <;> simp
  · simp only [Prod.mk.injEq, Except.ok.injEq] at h
    obtain ⟨hs, ht⟩ := h
    subst ht
    refine ⟨rfl, ?_, fun _ => ⟨rfl, hs.symm⟩⟩
    intro hmem
    rw [← hs] at hmem
    simp at hmem

lemma renewPhase_patchToken_steps (env : ReconcileEnv) (token : TokenObj)
    (secret : SecretObj) (v : String) (hsd : secret.stringData = [])
    (nm : String) (ne : Int) (s : List Step) (r : Except Outcome TokenObj)
    (h : renewPhase env token secret v = (s, r))
    (hm : Step.patchToken nm ne ∈ s) :
    ∃ nt, s = [Step.callRenew, Step.writeSecret nt, Step.event (Ev.normal "SecretUpdated"),
               Step.patchToken nm ne, Step.event (Ev.normal "TokenUpdated")] := by
  unfold renewPhase at h
  split at h
  · split at h
    · obtain ⟨hs, hr⟩ := Prod.mk.inj h
      subst hs
      simp at hm
    · rename_i nt nm0 neo hren
      split at h
      · rename_i hmut
        have hcontra := congrArg SecretObj.stringData hmut
        simp [hsd] at hcontra
      · split at h
        · obtain ⟨hs, hr⟩ := Prod.mk.inj h
          subst hs
          simp at hm
        · unfold renewPersistPolicy at h
          split at h
          · obtain ⟨hs, hr⟩ := Prod.mk.inj h
            subst hs
            simp at hm
          · rename_i ne0
            split at h
            · obtain ⟨hs, hr⟩ := Prod.mk.inj h
              subst hs
              simp at hm
            · split at h
              · obtain ⟨hs, hr⟩ := Prod.mk.inj h
                subst hs
                simp at hm
              · obtain ⟨hs, hr⟩ := Prod.mk.inj h
                subst hs
                simp at hm
                obtain ⟨hnm, hne⟩ := hm
                subst hnm hne
                exact ⟨nt, rfl⟩
  · obtain ⟨hs, hr⟩ := Prod.mk.inj h
    subst hs
    simp at hm

lemma renewPhase_secretFail (env : ReconcileEnv) (token : TokenObj)
    (secret : SecretObj) (v : String) (s : List Step) (r : Except Outcome TokenObj)
    (h : renewPhase env token secret v = (s, r))
    (hm : Step.event (Ev.warning "SecretUpdateError") ∈ s) :
    s = [Step.callRenew, Step.event (Ev.warning "SecretUpdateError")] ∧
    r = .error (.done ⟨0⟩ (some .secretUpdateFailed)) := by
  unfold renewPhase at h
  split at h
  · split at h
    · obtain ⟨hs, hr⟩ := Prod.mk.inj h
      subst hs
      simp at hm
    · rename_i nt nm0 neo hren
      split at h
      · unfold renewPersistPolicy at h
        split at h
        · obtain ⟨hs, hr⟩ := Prod.mk.inj h
          subst hs
          simp at hm
        · split at h
          · obtain ⟨hs, hr⟩ := Prod.mk.inj h
            subst hs
            simp at hm
          · split at h
            · obtain ⟨hs, hr⟩ := Prod.mk.inj h
              subst hs
              simp at hm
            · obtain ⟨hs, hr⟩ := Prod.mk.inj h
              subst hs
              simp at hm
      · split at h
        · obtain ⟨hs, hr⟩ := Prod.mk.inj h
          subst hs
          exact ⟨rfl, hr.symm⟩
        · unfold renewPersistPolicy at h
          split at h
          · obtain ⟨hs, hr⟩ := Prod.mk.inj h
            subst hs
            simp at hm
          · split at h
            · obtain ⟨hs, hr⟩ := Prod.mk.inj h
              subst hs
              simp at hm
            · split at h
              · obtain ⟨hs, hr⟩ := Prod.mk.inj h
                subst hs
                simp at hm
              · obtain ⟨hs, hr⟩ := Prod.mk.inj h
                subst hs
                simp at hm
  · obtain ⟨hs, hr⟩ := Prod.mk.inj h
    subst hs
    simp at hm

lemma reconcile_ok_shape (env : ReconcileEnv) (token : TokenObj) (res : CtrlResult)
    (hTok : env.tokenGet = .ok token)
    (hOut : (reconcile env).outcome = .done res none) :
    ∃ secret0 v steps1 token1 steps2 token2,
      env.secretGet = .ok secret0 ∧
      getKey "token" secret0.data = some v ∧
      bootstrapPhase env token = (steps1, .ok token1) ∧
      renewPhase env token1 { secret0 with stringData := [] } v = (steps2, .ok token2) ∧
      reconcile env =
        ⟨steps1 ++ steps2,
          .done ⟨token2.status.expirationTime - token2.spec.beforeDuration - env.now⟩ none,
          token2.status.expirationTime⟩ ∧
      res = ⟨token2.status.expirationTime - token2.spec.beforeDuration - env.now⟩ := by
  rcases hsg : env.secretGet with secret0 | - | -
  · simp only [reconcile, hTok, hsg] at hOut
    rcases hkey : getKey "token" secret0.data with - | v
    · rw [hkey] at hOut
      simp at hOut
    · rw [hkey] at hOut
      by_cases hv : v = ""
      · simp only [if_pos hv] at hOut
        simp at hOut
      · simp only [if_neg hv] at hOut
        rcases hpk : env.providerKnown with - | -
        · rw [hpk] at hOut
          simp at hOut
        · rw [hpk] at hOut
          simp only [Bool.true_eq_false, if_false] at hOut
          rcases hb : bootstrapPhase env token with ⟨steps1, r1⟩
          rw [hb] at hOut
          rcases r1 with o | token1
          · rcases bootstrapPhase_error_shape _ _ _ _ hb with rfl | ⟨e, rfl⟩ <;>
              simp at hOut
          · dsimp only at hOut
            rcases hrw : renewPhase env token1 { secret0 with stringData := [] } v with
              ⟨steps2, r2⟩
            rw [hrw] at hOut
            rcases r2 with o | token2
            · rcases renewPhase_error_shape _ _ _ _ _ _ hrw with rfl | ⟨e, rfl⟩ <;>
                simp at hOut
            · dsimp only at hOut
              simp only [Outcome.done.injEq] at hOut
              obtain ⟨hres, -⟩ := hOut
              refine ⟨secret0, v, steps1, token1, steps2, token2, rfl, hkey, rfl, hrw,
                ?_, hres.symm⟩
              simp only [reconcile, hTok, hsg, hkey, if_neg hv, hpk, Bool.true_eq_false,
                if_false, hb, hrw]
  · simp only [reconcile, hTok, hsg] at hOut
    simp at hOut
  · simp only [reconcile, hTok, hsg] at hOut
    simp at hOut

lemma reconcile_outcome_shape (env : ReconcileEnv) :
    (reconcile env).outcome = .panic ∨
    (∃ e, (reconcile env).outcome = .done ⟨0⟩ (some e)) ∨
    ∃ q, (reconcile env).outcome = .done ⟨q⟩ none := by
  rcases htg : env.tokenGet with token | - | -
  · rcases hsg : env.secretGet with secret0 | - | -
    · rcases hkey : getKey "token" secret0.data with - | v
      · simp [reconcile, htg, hsg, hkey]
      · by_cases hv : v = ""
        · simp [reconcile, htg, hsg, hkey, hv]
        · rcases hpk : env.providerKnown with - | -
          · simp [reconcile, htg, hsg, hkey, hv, hpk]
          · rcases hb : bootstrapPhase env token with ⟨steps1, r1⟩
            rcases r1 with o | token1
            · rcases bootstrapPhase_error_shape _ _ _ _ hb with rfl | ⟨e, rfl⟩ <;>
                simp [reconcile, htg, hsg, hkey, hv, hpk, hb]
            · rcases hrw : renewPhase env token1 { secret0 with stringData := [] } v with
                ⟨steps2, r2⟩
              rcases r2 with o | token2
              · rcases renewPhase_error_shape _ _ _ _ _ _ hrw with rfl | ⟨e, rfl⟩ <;>
                  simp [reconcile, htg, hsg, hkey, hv, hpk, hb, hrw]
              · simp [reconcile, htg, hsg, hkey, hv, hpk, hb, hrw]
    · simp [reconcile, htg, hsg]
    · simp [reconcile, htg, hsg]
  · simp [reconcile, htg]
  · simp [reconcile, htg]

/-- C1 (counterexample): at the zero-value (unset) expiration the renewal-due
condition of Reconcile line 125 is false even though that expiration is not
strictly after now + beforeDuration, so the claim fails as universally
stated over all expirations. -/
theorem renewalDue_zero_counterexample :
    renewalDue 0 100 50 = false ∧ ((0 : Int) ≤ 100 + 50) := by decide

/-- C1 (amended): for every set (non-zero) expiration, Reconcile's
renewal-due condition holds iff the expiration is not strictly after
now + beforeDuration, i.e. iff expiration ≤ now + beforeDuration; the
boundary expiration = now + beforeDuration is due. -/
theorem renewalDue_iff_of_set_expiration (exp now before : Int) (h : exp ≠ 0) :
    renewalDue exp now before = true ↔ exp ≤ now + before := by
  simp [renewalDue, timeIsZero, timeAfter, h]

/-- C1 (witness): the boundary instance 10 = 4 + 6 with a set expiration is
due. -/
theorem renewalDue_iff_witness :
    (10 : Int) ≠ 0 ∧ renewalDue 10 4 6 = true :=
  ⟨by decide, (renewalDue_iff_of_set_expiration 10 4 6 (by decide)).mpr (by decide)⟩

/-- C3 (counterexample): when the referenced Secret has vanished (NotFound),
the evaluation does not end quietly: it returns a fetch-secret error. -/
theorem secret_notfound_returns_error :
    secretVanishedEnv.secretGet = GetResult.notFound ∧
    (reconcile secretVanishedEnv).outcome = .done ⟨0⟩ (some RErr.fetchSecret) := by
  decide

/-- C3 (amended): a NotFound for the policy object ends the evaluation
quietly with no error, but a NotFound for the Secret is an error: the
evaluation emits a SecretNotFound warning and returns a fetch-secret
error. -/
theorem notfound_handling (env : ReconcileEnv) (token : TokenObj) :
    (env.tokenGet = .notFound → reconcile env = ⟨[], .done ⟨0⟩ none, 0⟩) ∧
    (env.tokenGet = .ok token → env.secretGet = .notFound →
      reconcile env =
        ⟨[.event (.warning "SecretNotFound")], .done ⟨0⟩ (some .fetchSecret), 0⟩) := by
  constructor
  · intro h
    simp [reconcile, h]
  · intro h1 h2
    simp [reconcile, h1, h2]

/-- C3 (witness): concrete instances of both parts. -/
theorem notfound_handling_witness :
    reconcile policyVanishedEnv = ⟨[], .done ⟨0⟩ none, 0⟩ ∧
    reconcile secretVanishedEnv =
      ⟨[.event (.warning "SecretNotFound")], .done ⟨0⟩ (some .fetchSecret), 0⟩ :=
  ⟨(notfound_handling policyVanishedEnv ⟨⟨"", "", 0, ""⟩, ⟨0⟩⟩).1 rfl,
   (notfound_handling secretVanishedEnv ⟨⟨"linode", "7", 3600, "tok-secret"⟩, ⟨100⟩⟩).2
     rfl rfl⟩

/-- C5: a Secret without the token key makes the evaluation fail with the
key-missing error and the TokenKeyNotFound event; a Secret whose token key
holds the empty value fails with the distinct value-empty error and the
TokenEmpty event. -/
theorem missing_key_and_empty_value_distinct (env : ReconcileEnv)
    (token : TokenObj) (secret0 : SecretObj)
    (hTok : env.tokenGet = .ok token) (hSec : env.secretGet = .ok secret0) :
    (getKey "token" secret0.data = none →
      reconcile env =
        ⟨[.event (.warning "TokenKeyNotFound")], .done ⟨0⟩ (some .keyMissing), 0⟩) ∧
    (getKey "token" secret0.data = some "" →
      reconcile env =
        ⟨[.event (.warning "TokenEmpty")], .done ⟨0⟩ (some .valueEmpty), 0⟩) ∧
    RErr.keyMissing ≠ RErr.valueEmpty := by
  refine ⟨fun hk => ?_, fun hk => ?_, by decide⟩ <;> simp [reconcile, hTok, hSec, hk]

/-- C5 (witness): concrete Secrets for both failure kinds. -/
theorem missing_key_witness :
    reconcile keyMissingEnv =
      ⟨[.event (.warning "TokenKeyNotFound")], .done ⟨0⟩ (some .keyMissing), 0⟩ ∧
    reconcile valueEmptyEnv =
      ⟨[.event (.warning "TokenEmpty")], .done ⟨0⟩ (some .valueEmpty), 0⟩ :=
  ⟨(missing_key_and_empty_value_distinct keyMissingEnv
      ⟨⟨"linode", "7", 3600, "tok-secret"⟩, ⟨100⟩⟩ ⟨[("other", "x")], []⟩ rfl rfl).1 rfl,
   (missing_key_and_empty_value_distinct valueEmptyEnv
      ⟨⟨"linode", "7", 3600, "tok-secret"⟩, ⟨100⟩⟩ ⟨[("token", "")], []⟩ rfl rfl).2.1 rfl⟩

/-- C7: an evaluation that returns an error returns it with the zero
result, recommending no requeue delay. -/
theorem error_result_recommends_no_requeue (env : ReconcileEnv) (res : CtrlResult)
    (e : RErr) (h : (reconcile env).outcome = .done res (some e)) :
    res = ⟨0⟩ := by
  rcases reconcile_outcome_shape env with hsh | ⟨e2, hsh⟩ | ⟨q, hsh⟩
  · rw [h] at hsh
    cases hsh
  · rw [h] at hsh
    exact (Outcome.done.inj hsh).1
  · rw [h] at hsh
    obtain ⟨-, hcontra⟩ := Outcome.done.inj hsh
    cases hcontra

/-- C7 (witness): the provider-not-found error comes with the zero result. -/
theorem error_result_witness :
    (reconcile c7Env).outcome = .done ⟨0⟩ (some RErr.providerNotFound) ∧
    (⟨0⟩ : CtrlResult) = ⟨0⟩ :=
  ⟨by decide, error_result_recommends_no_requeue c7Env ⟨0⟩ .providerNotFound (by decide)⟩

/-- C9: a file named linode.sock is matched by the *.sock discovery glob,
but the provider name computed by DiscoverPlugins strips len(".socket") = 7
bytes and is "lino", not the basename minus its extension. -/
theorem discovered_name_strips_socket_length :
    sockGlobMatches "linode.sock" = true ∧
    discoveredPluginName "linode.sock" = "lino" ∧
    discoveredPluginName "linode.sock" ≠ "linode" := by decide

/-- C10: Reconcile is not total over provider results: a provider answering
with a nil expiration pointer and nil error (as the Linode plugin does for
a token without an expiry) drives Reconcile into a nil-pointer dereference
(the panic outcome), both in the bootstrap path (GetTokenValidity, line
110) and in the renewal path (RenewToken, line 151). -/
theorem reconcile_panics_on_nil_expiration :
    nilValidityEnv.provider.validity = .ok none ∧
    (reconcile nilValidityEnv).outcome = .panic ∧
    nilRenewEnv.provider.renew = .ok ("new", "8", none) ∧
    (reconcile nilRenewEnv).outcome = .panic := by decide

lemma reconcile_trace_decomp (env : ReconcileEnv) :
    ((reconcile env).trace = [] ∨
     (reconcile env).trace = [Step.event (Ev.warning "SecretNotFound")] ∨
     (reconcile env).trace = [Step.event (Ev.warning "TokenKeyNotFound")] ∨
     (reconcile env).trace = [Step.event (Ev.warning "TokenEmpty")] ∨
     (reconcile env).trace = [Step.event (Ev.warning "ProviderNotFound")]) ∨
    (∃ token steps1 o,
      bootstrapPhase env token = (steps1, .error o) ∧
      (reconcile env).trace = steps1) ∨
    (∃ token secret0 v steps1 token1 steps2 r2,
      env.secretGet = .ok secret0 ∧
      bootstrapPhase env token = (steps1, .ok token1) ∧
      renewPhase env token1 { secret0 with stringData := [] } v = (steps2, r2) ∧
      (reconcile env).trace = steps1 ++ steps2 ∧
      (∀ o, r2 = .error o → (reconcile env).outcome = o)) := by
  rcases htg : env.tokenGet with token | - | -
  · rcases hsg : env.secretGet with secret0 | - | -
    · rcases hkey : getKey "token" secret0.data with - | v
      · exact Or.inl (Or.inr (Or.inr (Or.inl (by simp [reconcile, htg, hsg, hkey]))))
      · by_cases hv : v = ""
        · exact Or.inl (Or.inr (Or.inr (Or.inr (Or.inl
            (by simp [reconcile, htg, hsg, hkey, hv])))))
        · rcases hpk : env.providerKnown with - | -
          · exact Or.inl (Or.inr (Or.inr (Or.inr (Or.inr
              (by simp [reconcile, htg, hsg, hkey, hv, hpk])))))
          · rcases hb : bootstrapPhase env token with ⟨steps1, r1⟩
            rcases r1 with o | token1
            · exact Or.inr (Or.inl ⟨token, steps1, o, hb,
                by simp [reconcile, htg, hsg, hkey, hv, hpk, hb]⟩)
            · rcases hrw : renewPhase env token1 { secret0 with stringData := [] } v with
                ⟨steps2, r2⟩
              rcases r2 with o | token2
              · refine Or.inr (Or.inr ⟨token, secret0, v, steps1, token1, steps2,
                  .error o, rfl, hb, hrw,
                  by simp [reconcile, htg, hsg, hkey, hv, hpk, hb, hrw], ?_⟩)
                intro o2 ho2
                injection ho2 with h2
                subst h2
                simp [reconcile, htg, hsg, hkey, hv, hpk, hb, hrw]
              · refine Or.inr (Or.inr ⟨token, secret0, v, steps1, token1, steps2,
                  .ok token2, rfl, hb, hrw,
                  by simp [reconcile, htg, hsg, hkey, hv, hpk, hb, hrw], ?_⟩)
                intro o2 ho2
                exact Except.noConfusion ho2
    · exact Or.inl (Or.inr (Or.inl (by simp [reconcile, htg, hsg])))
    · exact Or.inl (Or.inr (Or.inl (by simp [reconcile, htg, hsg])))
  · exact Or.inl (Or.inl (by simp [reconcile, htg]))
  · exact Or.inl (Or.inl (by simp [reconcile, htg]))

/-- C4: in every evaluation, an issued policy renewal write is preceded in
the trace by the issued Secret write; and when the Secret write fails the
evaluation terminates with the secret-update error having issued no policy
renewal write. -/
theorem store_write_precedes_policy_write (env : ReconcileEnv) :
    (∀ nm ne, Step.patchToken nm ne ∈ (reconcile env).trace →
      ∃ nt pre mid post,
        (reconcile env).trace =
          pre ++ Step.writeSecret nt :: (mid ++ Step.patchToken nm ne :: post)) ∧
    (Step.event (Ev.warning "SecretUpdateError") ∈ (reconcile env).trace →
      (reconcile env).outcome = .done ⟨0⟩ (some .secretUpdateFailed) ∧
      ∀ nm ne, Step.patchToken nm ne ∉ (reconcile env).trace) := by
  rcases reconcile_trace_decomp env with hearly | ⟨token, steps1, o, hb, htr⟩ |
    ⟨token, secret0, v, steps1, token1, steps2, r2, hsg, hb, hrw, htr, hout⟩
  · constructor
    · intro nm ne hm
      rcases hearly with h | h | h | h | h <;> rw [h] at hm <;> simp at hm
    · intro hm
      rcases hearly with h | h | h | h | h <;> rw [h] at hm <;> simp at hm
  · have hfst : (bootstrapPhase env token).1 = steps1 := by rw [hb]
    obtain ⟨-, hnp, -, hnse⟩ := bootstrapPhase_steps_no_renew env token
    constructor
    · intro nm ne hm
      rw [htr, ← hfst] at hm
      exact absurd hm (hnp nm ne)
    · intro hm
      rw [htr, ← hfst] at hm
      exact absurd hm hnse
  · have hfst : (bootstrapPhase env token).1 = steps1 := by rw [hb]
    obtain ⟨-, hnp, -, hnse⟩ := bootstrapPhase_steps_no_renew env token
    constructor
    · intro nm ne hm
      rw [htr] at hm
      rcases List.mem_append.mp hm with hm1 | hm2
      · rw [← hfst] at hm1
        exact absurd hm1 (hnp nm ne)
      · obtain ⟨nt, hsteps2⟩ :=
          renewPhase_patchToken_steps env token1 { secret0 with stringData := [] } v rfl
            nm ne steps2 r2 hrw hm2
        refine ⟨nt, steps1 ++ [Step.callRenew], [Step.event (Ev.normal "SecretUpdated")],
          [Step.event (Ev.normal "TokenUpdated")], ?_⟩
        rw [htr, hsteps2]
        simp
    · intro hm
      rw [htr] at hm
      rcases List.mem_append.mp hm with hm1 | hm2
      · rw [← hfst] at hm1
        exact absurd hm1 hnse
      · obtain ⟨hsteps2, hr2⟩ :=
          renewPhase_secretFail env token1 { secret0 with stringData := [] } v steps2 r2
            hrw hm2
        subst hr2
        refine ⟨hout _ rfl, ?_⟩
        intro nm ne hmp
        rw [htr, hsteps2] at hmp
        rcases List.mem_append.mp hmp with h1 | h2
        · rw [← hfst] at h1
          exact (hnp nm ne) h1
        · simp at h2

/-- C4 (witness): a concrete full renewal whose trace shows the Secret
write strictly before the policy write. -/
theorem store_write_order_witness :
    Step.patchToken "nm" 5000 ∈ (reconcile c4Env).trace ∧
    ∃ nt pre mid post,
      (reconcile c4Env).trace =
        pre ++ Step.writeSecret nt :: (mid ++ Step.patchToken "nm" 5000 :: post) :=
  ⟨by decide, (store_write_precedes_policy_write c4Env).1 "nm" 5000 (by decide)⟩

/-- C2 (counterexample): with the stored expiration unset and
GetTokenValidity returning an expiration already inside the renewal window
(5 ≤ 0 + 10), the same evaluation does call RenewToken, refuting the
"regardless of the expiration value returned" part of the claim. -/
theorem bootstrap_can_renew_same_pass :
    c2Token.status.expirationTime = 0 ∧
    Step.callGetValidity ∈ (reconcile c2BadEnv).trace ∧
    Step.callRenew ∈ (reconcile c2BadEnv).trace := by decide

/-- C2 (amended): with the stored expiration unset, the evaluation calls
GetTokenValidity exactly once and persists the returned expiration; it does
not call RenewToken in the same evaluation provided the returned expiration
is strictly after now + beforeDuration (otherwise renewal proceeds in the
same pass). -/
theorem bootstrap_queries_once_no_renew (env : ReconcileEnv) (token : TokenObj)
    (secret0 : SecretObj) (v : String) (t : Int)
    (hTok : env.tokenGet = .ok token)
    (hExp : token.status.expirationTime = 0)
    (hSec : env.secretGet = .ok secret0)
    (hKey : getKey "token" secret0.data = some v)
    (hv : v ≠ "")
    (hPk : env.providerKnown = true)
    (hVal : env.provider.validity = .ok (some t))
    (ht : t ≠ 0)
    (hW : env.writes.statusPatchFails = false)
    (hBeyond : env.now + token.spec.beforeDuration < t) :
    (reconcile env).trace.count Step.callGetValidity = 1 ∧
    Step.patchTokenStatus t ∈ (reconcile env).trace ∧
    Step.callRenew ∉ (reconcile env).trace ∧
    (reconcile env).outcome = .done ⟨t - token.spec.beforeDuration - env.now⟩ none := by
  have hne : ({ token with status := ⟨t⟩ } : TokenObj) ≠ token := by
    intro hcontra
    have hfield := congrArg (fun x => x.status.expirationTime) hcontra
    simp [hExp] at hfield
    exact ht hfield
  have hb : bootstrapPhase env token =
      ([Step.callGetValidity, Step.patchTokenStatus t, Step.event (Ev.normal "TokenUpdated")],
        .ok { token with status := ⟨t⟩ }) := by
    unfold bootstrapPhase
    rw [hVal]
    simp [timeIsZero, hExp, hne, hW]
  have hdue : renewalDue t env.now token.spec.beforeDuration = false := by
    simp [renewalDue, timeAfter, hBeyond]
  have hr : renewPhase env { token with status := ⟨t⟩ } { secret0 with stringData := [] } v =
      ([], .ok { token with status := ⟨t⟩ }) := by
    unfold renewPhase
    simp only [TokenObj.mk.injEq]
    rw [if_neg]
    intro hcontra
    rw [hdue] at hcontra
    cases hcontra
  have hrec : reconcile env =
      ⟨[Step.callGetValidity, Step.patchTokenStatus t, Step.event (Ev.normal "TokenUpdated")],
        .done ⟨t - token.spec.beforeDuration - env.now⟩ none, t⟩ := by
    simp [reconcile, hTok, hSec, hKey, hv, hPk, hb, hr]
  rw [hrec]
  refine ⟨?_, by simp, by simp, rfl⟩
  simp [List.count_cons]

/-- C2 (witness): an unset expiration bootstrapped to 5000, beyond the
window 0 + 10, with no renewal in the same pass. -/
theorem bootstrap_no_renew_witness :
    c2Token.status.expirationTime = 0 ∧
    (reconcile c2GoodEnv).trace.count Step.callGetValidity = 1 ∧
    Step.patchTokenStatus 5000 ∈ (reconcile c2GoodEnv).trace ∧
    Step.callRenew ∉ (reconcile c2GoodEnv).trace :=
  ⟨rfl,
   (bootstrap_queries_once_no_renew c2GoodEnv c2Token ⟨[("token", "old")], []⟩ "old" 5000
      rfl rfl rfl (by decide) (by decide) rfl rfl (by decide) rfl (by decide)).1,
   (bootstrap_queries_once_no_renew c2GoodEnv c2Token ⟨[("token", "old")], []⟩ "old" 5000
      rfl rfl rfl (by decide) (by decide) rfl rfl (by decide) rfl (by decide)).2.1,
   (bootstrap_queries_once_no_renew c2GoodEnv c2Token ⟨[("token", "old")], []⟩ "old" 5000
      rfl rfl rfl (by decide) (by decide) rfl rfl (by decide) rfl (by decide)).2.2.1⟩

/-- C6 (counterexample): a renewal whose computed token value, metadata and
expiration all equal the stored ones still issues a Secret write and emits
the SecretUpdated event, because the mutation repopulates the write-only
stringData field of the fetched Secret. -/
theorem secret_write_not_skipped :
    c6BadEnv.provider.renew =
      .ok ("same-token", c6Token.spec.metadata, some c6Token.status.expirationTime) ∧
    getKey "token" ([("token", "same-token")] : List (String × String)) =
      some "same-token" ∧
    Step.writeSecret "same-token" ∈ (reconcile c6BadEnv).trace ∧
    Step.event (Ev.normal "SecretUpdated") ∈ (reconcile c6BadEnv).trace := by decide

/-- C6 (amended): when the renewal computes metadata and expiration equal to
the stored policy values, the policy write is skipped and no TokenUpdated
event is emitted; the Secret write, however, is not skipped: a Secret write
and its SecretUpdated event occur on every successful renewal. -/
theorem policy_noop_skip_but_secret_write (env : ReconcileEnv) (token : TokenObj)
    (secret0 : SecretObj) (v nt : String)
    (hTok : env.tokenGet = .ok token)
    (hSec : env.secretGet = .ok secret0)
    (hKey : getKey "token" secret0.data = some v)
    (hv : v ≠ "")
    (hPk : env.providerKnown = true)
    (hExp : token.status.expirationTime ≠ 0)
    (hDue : token.status.expirationTime ≤ env.now + token.spec.beforeDuration)
    (hRen : env.provider.renew =
      .ok (nt, token.spec.metadata, some token.status.expirationTime))
    (hW : env.writes.secretUpdateFails = false) :
    (∀ nm ne, Step.patchToken nm ne ∉ (reconcile env).trace) ∧
    Step.event (Ev.normal "TokenUpdated") ∉ (reconcile env).trace ∧
    Step.writeSecret nt ∈ (reconcile env).trace ∧
    Step.event (Ev.normal "SecretUpdated") ∈ (reconcile env).trace ∧
    (reconcile env).outcome =
      .done ⟨token.status.expirationTime - token.spec.beforeDuration - env.now⟩ none := by
  have hb : bootstrapPhase env token = ([], .ok token) := by
    unfold bootstrapPhase
    rw [if_neg]
    simp [timeIsZero, hExp]
  have hdue6 : renewalDue token.status.expirationTime env.now token.spec.beforeDuration =
      true := by
    simp [renewalDue, timeIsZero, timeAfter, hExp, not_lt.mpr hDue]
  have hmut : ({ data := secret0.data, stringData := [("token", nt)] } : SecretObj) ≠
      { secret0 with stringData := [] } := by
    intro hcontra
    have hfield := congrArg SecretObj.stringData hcontra
    simp at hfield
  have hpp : renewPersistPolicy env token
      [Step.callRenew, Step.writeSecret nt, Step.event (Ev.normal "SecretUpdated")]
      token.spec.metadata (some token.status.expirationTime) =
      ([Step.callRenew, Step.writeSecret nt, Step.event (Ev.normal "SecretUpdated")],
        .ok token) := by
    simp only [renewPersistPolicy]
    split
    · rfl
    · rename_i hcontra
      exact absurd trivial hcontra
  have hr : renewPhase env token { secret0 with stringData := [] } v =
      ([Step.callRenew, Step.writeSecret nt, Step.event (Ev.normal "SecretUpdated")],
        .ok token) := by
    unfold renewPhase
    rw [if_pos hdue6, hRen]
    simp only []
    rw [if_neg hmut]
    rw [if_neg (by rw [hW]; intro hc; cases hc)]
    exact hpp
  have hrec : reconcile env =
      ⟨[Step.callRenew, Step.writeSecret nt, Step.event (Ev.normal "SecretUpdated")],
        .done ⟨token.status.expirationTime - token.spec.beforeDuration - env.now⟩ none,
        token.status.expirationTime⟩ := by
    simp [reconcile, hTok, hSec, hKey, hv, hPk, hb, hr]
  rw [hrec]
  exact ⟨by simp, by simp, by simp, by simp, rfl⟩

/-- C6 (witness): the concrete value-unchanged renewal skips the policy
write but performs the Secret write. -/
theorem policy_noop_skip_witness :
    (∀ nm ne, Step.patchToken nm ne ∉ (reconcile c6BadEnv).trace) ∧
    Step.event (Ev.normal "TokenUpdated") ∉ (reconcile c6BadEnv).trace ∧
    Step.writeSecret "same-token" ∈ (reconcile c6BadEnv).trace :=
  ⟨(policy_noop_skip_but_secret_write c6BadEnv c6Token ⟨[("token", "same-token")], []⟩
      "same-token" "same-token" rfl rfl (by decide) (by decide) rfl (by decide)
      (by decide) rfl rfl).1,
   (policy_noop_skip_but_secret_write c6BadEnv c6Token ⟨[("token", "same-token")], []⟩
      "same-token" "same-token" rfl rfl (by decide) (by decide) rfl (by decide)
      (by decide) rfl rfl).2.1,
   (policy_noop_skip_but_secret_write c6BadEnv c6Token ⟨[("token", "same-token")], []⟩
      "same-token" "same-token" rfl rfl (by decide) (by decide) rfl (by decide)
      (by decide) rfl rfl).2.2.1⟩

/-- C8: a successful evaluation of a found policy recommends requeueing
after expiration - beforeDuration - now: the expiration used is the
post-renewal one when RenewToken was called and the stored one otherwise,
and when expiration - beforeDuration is already in the past the
recommended delay is nonpositive (an immediate recheck). -/
theorem success_requeue_time (env : ReconcileEnv) (token : TokenObj) (res : CtrlResult)
    (hTok : env.tokenGet = .ok token)
    (hOut : (reconcile env).outcome = .done res none) :
    res.requeueAfter = (reconcile env).finalExp - token.spec.beforeDuration - env.now ∧
    (∀ nt nm ne, Step.callRenew ∈ (reconcile env).trace →
      env.provider.renew = .ok (nt, nm, some ne) → (reconcile env).finalExp = ne) ∧
    (Step.callRenew ∉ (reconcile env).trace → token.status.expirationTime ≠ 0 →
      (reconcile env).finalExp = token.status.expirationTime) ∧
    ((reconcile env).finalExp - token.spec.beforeDuration < env.now →
      res.requeueAfter ≤ 0) := by
  obtain ⟨secret0, v, steps1, token1, steps2, token2, hsg, hkey, hb, hrw, hrec, hres⟩ :=
    reconcile_ok_shape env token res hTok hOut
  obtain ⟨hspec1, hnz1, -⟩ := bootstrapPhase_ok_spec _ _ _ _ hb
  obtain ⟨hbd2, hmem2, hnomem2⟩ := renewPhase_ok_spec _ _ _ _ _ _ hrw
  have hfe : (reconcile env).finalExp = token2.status.expirationTime := by rw [hrec]
  have htrace : (reconcile env).trace = steps1 ++ steps2 := by rw [hrec]
  have hbd : token2.spec.beforeDuration = token.spec.beforeDuration := by
    rw [hbd2, hspec1]
  have hcr1 : Step.callRenew ∉ steps1 := by
    have h1 := (bootstrapPhase_steps_no_renew env token).1
    rw [hb] at h1
    exact h1
  subst hres
  refine ⟨?_, ?_, ?_, ?_⟩
  · simp only [hfe, hbd]
  · intro nt nm ne hm hren
    rw [htrace] at hm
    rcases List.mem_append.mp hm with h1 | h2
    · exact absurd h1 hcr1
    · obtain ⟨nt2, nm2, ne2, hren2, hexp2⟩ := hmem2 h2
      rw [hfe, hexp2]
      rw [hren] at hren2
      obtain h3 := Except.ok.inj hren2
      obtain ⟨-, h4⟩ := Prod.mk.inj h3
      obtain ⟨-, h5⟩ := Prod.mk.inj h4
      exact (Option.some.inj h5).symm
  · intro hnot hnz
    rw [htrace] at hnot
    have h2 : Step.callRenew ∉ steps2 := fun hc => hnot (List.mem_append.mpr (Or.inr hc))
    obtain ⟨ht21, -⟩ := hnomem2 h2
    obtain ⟨ht10, -⟩ := hnz1 hnz
    rw [hfe, ht21, ht10]
  · intro hpast
    rw [hfe] at hpast
    show token2.status.expirationTime - token2.spec.beforeDuration - env.now ≤ 0
    omega

/-- C8 (witness): after renewing to expiration 5000 with beforeDuration
3600 at now 0, the evaluation recommends a requeue after 1400. -/
theorem success_requeue_witness :
    (reconcile c8Env).outcome = .done ⟨1400⟩ none ∧
    (⟨1400⟩ : CtrlResult).requeueAfter =
      (reconcile c8Env).finalExp - c8Token.spec.beforeDuration - c8Env.now :=
  ⟨by decide, (success_requeue_time c8Env c8Token ⟨1400⟩ rfl (by decide)).1⟩

end TokenRenewer
